import Mathlib

/-!
Formal model of the django-optimizer repository.

This file gives a shallow embedding, in Lean 4, of the parts of
django-optimizer that the verified properties talk about:

* `registry.py` — the `Registry` base class (a cache plus a key index) and
  `FieldRegistry` (triples of field-name sets keyed by a location string),
  including the csv export and import;
* `location.py` — `QuerySetLocation`, which walks the interpreter stack to
  build a stable call-site identity;
* `query.py` and `models.py` — the two queryset variants
  (`SelectiveQuerySet` and the older `OptimizerQuerySet`) and their
  plan-rewriting passes `_perform_select_related`, `_perform_prefetch_related`
  and `_perform_only`;
* `transaction.py` and `monkey_patching.py` — the deferred-write scope:
  `replace_save_method` / `rollback_save_method`, `_delayed_save`,
  `DeferredPK`, `perform_delayed_db_queries` and the patched
  `__getattribute__` hook.

Python sets become `Finset String`, the cache becomes an association list
from keys to values, Python exceptions become `Except`, and the pieces of
django that the code merely calls through (the cache backends, `bulk_create`,
`bulk_update`) are modelled as effects recorded in an explicit state; signal
dispatch has no effect observable in the modelled state and is not tracked.
-/

/-! ## Character-list string helpers

Python substring containment (`needle in hay`) is modelled on the underlying
character lists so that concrete instances reduce inside the kernel. -/

/-- Boolean list-of-characters version of `startswith`. -/
def chIsPrefix : List Char → List Char → Bool
  | [], _ => true
  | _ :: _, [] => false
  | a :: as, b :: bs => a == b && chIsPrefix as bs

/-- Boolean substring containment on character lists. -/
def chContains (needle : List Char) : List Char → Bool
  | [] => needle.isEmpty
  | c :: rest => chIsPrefix needle (c :: rest) || chContains needle rest

/-- Python `needle in hay` on strings. -/
def strContains (hay needle : String) : Bool :=
  chContains needle.data hay.data

/-! ## The field registry (`registry.py`)

`Registry` wraps a key-value cache together with a separate key index stored
under `key_list_id`; `FieldRegistry` instantiates it with
`initial_value = (set(), set(), set())`.  The cache is modelled as an
association list and the key index as a list of strings, mirroring the
Python list stored in the cache. -/

/-- The `(select, prefetch, only)` triple of field-name sets that
`FieldRegistry` stores per location key. -/
structure FieldTriple where
  select : Finset String
  prefetch : Finset String
  only : Finset String
deriving DecidableEq

/-- The triple `(set(), set(), set())`, the `initial_value` of
`FieldRegistry`. -/
def emptyTriple : FieldTriple := ⟨∅, ∅, ∅⟩

namespace FieldRegistry

/-- `FieldRegistry.SELECT = 0`. -/
def SELECT : Nat := 0

/-- `FieldRegistry.PREFETCH = 1`. -/
def PREFETCH : Nat := 1

/-- `FieldRegistry.ONLY = 2`. -/
def ONLY : Nat := 2

end FieldRegistry

/-- Category accessor: component `i` of the stored triple (0 = select,
1 = prefetch, 2 = only; any other index denotes no component). -/
def FieldTriple.cat (t : FieldTriple) (i : Nat) : Finset String :=
  if i = 0 then t.select else if i = 1 then t.prefetch
  else if i = 2 then t.only else ∅

/-- The modifier used by `FieldRegistry.add`:
`tuple(s | {field} if index == i else s for i, s in enumerate(x))`. -/
def FieldTriple.addAt (t : FieldTriple) (i : Nat) (f : String) : FieldTriple :=
  { select := if i = 0 then insert f t.select else t.select
    prefetch := if i = 1 then insert f t.prefetch else t.prefetch
    only := if i = 2 then insert f t.only else t.only }

/-- Association-list model of the key-value cache consumed by `Registry`
(`cache.get` returning `None` on a missing key becomes `none`). -/
def lookupStore {α : Type} : List (String × α) → String → Option α
  | [], _ => none
  | (k, v) :: rest, key => if k = key then some v else lookupStore rest key

/-- `cache.set(key, value)`: overwrite the entry for `key`, or append it. -/
def storeSet {α : Type} : List (String × α) → String → α → List (String × α)
  | [], key, v => [(key, v)]
  | (k, w) :: rest, key, v =>
    if k = key then (key, v) :: rest else (k, w) :: storeSet rest key v

/-- State of a `FieldRegistry`: the cache contents (location key to triple)
plus the key index stored under `key_list_id`. -/
structure RegistryState where
  store : List (String × FieldTriple)
  keys : List String
deriving DecidableEq

/-- A registry whose cache holds nothing and whose key index is empty. -/
def emptyRegistry : RegistryState := ⟨[], []⟩

namespace Registry

/-- `Registry.get`: `self.cache.get(str(key)) or copy.deepcopy(self.initial_value)`.
The stored triple is a non-empty Python tuple and hence always truthy, so
the fallback to the initial value fires exactly on a missing key. -/
def get (st : RegistryState) (key : String) : FieldTriple :=
  (lookupStore st.store key).getD emptyTriple

/-- `Registry.get` in state-passing form: the method only reads the cache,
so the state it leaves behind is the state it was given. -/
def getS (st : RegistryState) (key : String) : FieldTriple × RegistryState :=
  (get st key, st)

/-- `Registry.add_key`: append the key to the stored key list. -/
def addKey (st : RegistryState) (key : String) : RegistryState :=
  { st with keys := st.keys ++ [key] }

/-- `Registry.set`: read the current value (or the initial one), record the
key in the key index when it is not there yet, apply the modifier and write
the result back; returns the new state with the written value. -/
def set (st : RegistryState) (key : String) (modifier : FieldTriple → FieldTriple) :
    RegistryState × FieldTriple :=
  let value := get st key
  let st1 := if key ∈ st.keys then st else addKey st key
  let value1 := modifier value
  ({ st1 with store := storeSet st1.store key value1 }, value1)

end Registry

/-- Modelled from the spec: the `ObjectLocation` class is imported from
`django_optimizer.location` by `query.py`, `iterables.py` and `wrappers.py`,
but its definition is not under the provided sources (`location.py` only
contains the older `QuerySetLocation`).  Per the spec, a Location carries a
file, a scope and a discriminator attribute, is empty/falsy exactly when the
running call stack contains no application-code frame, and its string form
is a deterministic slash-joined concatenation of the attributes, used
verbatim as the registry key. -/
structure ObjectLocation where
  file : String
  scope : String
  discriminator : String
  /-- Truthiness of the location: `False` when no application-code frame
  exists on the stack. -/
  present : Bool
deriving DecidableEq

/-- The string form of a location, its registry cache key. -/
def ObjectLocation.key (loc : ObjectLocation) : String :=
  loc.file ++ "/" ++ loc.scope ++ "/" ++ loc.discriminator

namespace FieldRegistry

/-- `FieldRegistry.add(qs_location, index, field)`: union the field name into
the category set at `index` and write the whole triple back through
`Registry.set`.  Note that the method inspects nothing about the location
beyond its string form. -/
def add (st : RegistryState) (loc : ObjectLocation) (index : Nat) (field : String) :
    RegistryState × FieldTriple :=
  Registry.set st loc.key (fun t => t.addAt index field)

end FieldRegistry

/-! ## csv export and import (`Registry.to_csv` / `Registry.from_csv`)

A csv row is modelled in already-parsed form: the key cell plus the three
list cells.  `pair_to_row` renders each set with `list(...)` and
`row_to_pair` parses each cell back with `ast.literal_eval` and rebuilds the
sets; for the string lists involved that round trip is the identity, so the
cells are carried as `List String` directly. -/

/-- One row of the registry csv file: key, select list, prefetch list,
only list. -/
structure CsvRow where
  key : String
  sel : List String
  pre : List String
  onl : List String
deriving DecidableEq

/-- `FieldRegistry.pair_to_row`: `[key, list(value[0]), list(value[1]), list(value[2])]`.
Python renders each set in an unspecified iteration order; the model picks
the sorted order, which the immediate re-parse into a set makes
irrelevant. -/
def pairToRow (key : String) (t : FieldTriple) : CsvRow :=
  ⟨key, Finset.sort (· ≤ ·) t.select, Finset.sort (· ≤ ·) t.prefetch,
    Finset.sort (· ≤ ·) t.only⟩

/-- `FieldRegistry.row_to_pair`: `row[0], (set(select), set(prefetch), set(only))`. -/
def rowToPair (r : CsvRow) : String × FieldTriple :=
  (r.key, ⟨r.sel.toFinset, r.pre.toFinset, r.onl.toFinset⟩)

/-- Insert a string into a list keeping it sorted; helper for `sorted(...)`. -/
def insSorted (x : String) : List String → List String
  | [] => [x]
  | y :: ys => if x ≤ y then x :: y :: ys else y :: insSorted x ys

/-- Python `sorted(...)` on a list of strings (insertion sort). -/
def sortKeys (l : List String) : List String :=
  l.foldr insSorted []

/-- `Registry.to_csv`: one row per key of `sorted(self.get_keys())`, with the
value read back through `Registry.get`. -/
def toCsv (st : RegistryState) : List CsvRow :=
  (sortKeys st.keys).map (fun k => pairToRow k (Registry.get st k))

/-- One loop iteration of `Registry.from_csv`: `self.add_key(key)` (with no
duplicate check) followed by `self.cache.set(key, val)`. -/
def fromCsvStep (st : RegistryState) (r : CsvRow) : RegistryState :=
  let kv := rowToPair r
  { store := storeSet st.store kv.1 kv.2, keys := st.keys ++ [kv.1] }

/-- `Registry.from_csv` with `clear=True`: clear the cache (which also wipes
the key index, stored in the same cache), then replay every row. -/
def fromCsv (rows : List CsvRow) : RegistryState :=
  rows.foldl fromCsvStep emptyRegistry

/-! ## Call-site location (`location.py`)

`QuerySetLocation.__init__` walks `inspect.stack()`.  A stack is modelled as
a list of frames, most recent first, each carrying the source file name, the
enclosing function name and the source line at the frame (entries 1, 3 and
`code_context[index]` of the Python frame record). -/

/-- One record of `inspect.stack()`: file name, function name and the
triggering source line. -/
structure StackFrame where
  filename : String
  function : String
  codeLine : String
deriving DecidableEq

/-- The Python exceptions that the location code can raise. -/
inductive LocError
  | indexError
deriving DecidableEq

/-- `QuerySetLocation.get_source`:
`latest_file_name = [s[1] for s in inspect.stack() if BASE_DIR in s[1]][0]`
followed by `[s for s in inspect.stack() if s[1] == latest_file_name]`.
Indexing `[0]` into the comprehension raises `IndexError` when no frame file
contains `BASE_DIR`. -/
def getSource (baseDir : String) (stack : List StackFrame) :
    Except LocError (List StackFrame) :=
  match (stack.filter (fun s => strContains s.filename baseDir)).head? with
  | none => Except.error LocError.indexError
  | some fr => Except.ok (stack.filter (fun s => s.filename = fr.filename))

/-- The four attributes a fully constructed `QuerySetLocation` stores. -/
structure QSLocation where
  type : String
  file : String
  scope : String
  varName : String
deriving DecidableEq

/-- `QuerySetLocation.get_file`: take `source[0]`, replace `BASE_DIR` with a
dot and strip the `.py` extension. -/
def getFile (baseDir : String) (source : List StackFrame) : String :=
  match source with
  | [] => ""
  | fr :: _ => (fr.filename.replace baseDir ".").replace ".py" ""

/-- `QuerySetLocation.get_scope`: dot-join, innermost first, the function
names of the frames sharing the file of `source[0]`. -/
def getScope (source : List StackFrame) : String :=
  match source with
  | [] => ""
  | fr :: _ =>
    String.intercalate "." ((source.filter (fun s => s.filename = fr.filename)).map
      (fun s => s.function)).reverse

/-- `QuerySetLocation.get_variable.__extract_name_from_line`: drop everything
up to a `class` or `def` token, drop everything from an `=` sign on, strip
whitespace.  (`line.split(tok)` of a line not containing `tok` is the
singleton list, so taking the last, resp. first, part subsumes the
containment test of the Python loop.) -/
def extractNameFromLine (line : String) : String :=
  let l1 := (line.splitOn "class").getLastD line
  let l2 := (l1.splitOn "def").getLastD l1
  ((l2.splitOn "=").headD l2).trim

/-- `QuerySetLocation.__init__` for a queryset over the model named
`modelName`: run `get_source` (whose `IndexError` propagates) and fill the
four attributes. -/
def qsLocationInit (baseDir modelName : String) (stack : List StackFrame) :
    Except LocError QSLocation :=
  match getSource baseDir stack with
  | Except.error e => Except.error e
  | Except.ok source =>
    Except.ok
      { type := modelName.toLower
        file := getFile baseDir source
        scope := getScope source
        varName := match source with
          | [] => ""
          | fr :: _ => extractNameFromLine fr.codeLine }

/-! ## Queryset plan rewriting (`query.py` and `models.py`)

The django query state that the rewrite passes read and write: the
`select_related` attribute (`False`, `True`, or a mapping whose top-level
keys are the joined relation names), the list of prefetch lookups (compared
by their through-name), `deferred_loading` (a set of field names plus the
flag telling whether they are deferred or immediate), and whether the
queryset has a flat `values()`/`values_list()` projection (`self._fields`). -/

/-- The `select_related` attribute of a django query: `False`, `True`
(wildcard) or a set of relation names (the keys of the nested dict). -/
inductive SelectRelatedState
  | noneSel
  | allSel
  | flds (s : Finset String)
deriving DecidableEq

/-- Query-level state read and written by the plan-rewrite passes. -/
structure DQuery where
  selectRelated : SelectRelatedState
  prefetchLookups : List String
  deferredFields : Finset String
  deferIsDefer : Bool
  /-- Whether `self._fields` is not `None`, i.e. the queryset has a flat
  `values()`-style projection. -/
  fieldsProj : Bool
deriving DecidableEq

/-- The external `select_related(*fields)` primitive of the query executor:
merge the given names into the current join state (a deliberate `True`
wildcard is never reached here as the pass returns early on it). -/
def selRelUpdate : SelectRelatedState → Finset String → SelectRelatedState
  | SelectRelatedState.noneSel, fields => SelectRelatedState.flds fields
  | SelectRelatedState.allSel, _ => SelectRelatedState.allSel
  | SelectRelatedState.flds s, fields => SelectRelatedState.flds (s ∪ fields)

/-- `SelectiveQuerySet._perform_select_related` (query.py): skip a wildcard
join state; call `select_related(*fields)` only on a non-empty field set;
then, because `qs.select_for_update` is a bound method and hence always
truthy, filter nullable relation names out of a dict-valued join state
(the nested dict is modelled at the granularity of its top-level keys, with
nullability supplied as a predicate). -/
def performSelectRelatedSel (nullable : String → Bool) (q : DQuery)
    (fields : Finset String) : DQuery :=
  if q.selectRelated = SelectRelatedState.allSel then q
  else
    let q1 := if fields ≠ ∅ then { q with selectRelated := selRelUpdate q.selectRelated fields } else q
    match q1.selectRelated with
    | SelectRelatedState.flds s =>
      { q1 with selectRelated := SelectRelatedState.flds (s.filter (fun f => ¬ nullable f)) }
    | _ => q1

/-- `SelectiveQuerySet._perform_prefetch_related` (query.py): for each label
not already among the through-names of the existing prefetch lookups, add a
new prefetch directive (whose inner queryset is recursively wrapped; only
the lookup through-name matters to the query state modelled here). -/
def performPrefetchRelatedSel (q : DQuery) (fields : List String) : DQuery :=
  fields.foldl
    (fun acc label =>
      if label ∈ acc.prefetchLookups then acc
      else { acc with prefetchLookups := acc.prefetchLookups ++ [label] })
    q

/-- The restricted-column set that `SelectiveQuerySet._perform_only`
(query.py) hands to `.only(*fields)`: `none` when `only()` is not invoked at
all (empty registry set); otherwise the registry `only` set, unioned with
the top-level `select_related` keys when that state is a dict, then
reconciled with the current `deferred_loading` contents (subtracted in defer
mode, unioned in only mode). -/
def onlyFieldsSelective (q : DQuery) (fields : Finset String) : Option (Finset String) :=
  if fields = ∅ then none
  else
    let f1 := match q.selectRelated with
      | SelectRelatedState.flds s => fields ∪ s
      | _ => fields
    some (if q.deferIsDefer then f1 \ q.deferredFields else f1 ∪ q.deferredFields)

/-- `SelectiveQuerySet._perform_only` (query.py): apply the computed set via
the external `.only(*fields)` primitive, which makes the set the immediate
loading set. -/
def performOnlySel (q : DQuery) (fields : Finset String) : DQuery :=
  match onlyFieldsSelective q fields with
  | none => q
  | some s => { q with deferredFields := s, deferIsDefer := false }

/-- The restricted-column set computed by `OptimizerQuerySet._perform_only`
(models.py): `none` after a `values()`-style projection (the pass returns
the queryset untouched); otherwise the registry `only` set plus the literal
`id` column plus the top-level `select_related` keys when that state is a
dict. -/
def onlyFieldsOptimizer (q : DQuery) (fields : Finset String) : Option (Finset String) :=
  if q.fieldsProj then none
  else
    let f1 := fields ∪ {"id"}
    some (match q.selectRelated with
      | SelectRelatedState.flds s => f1 ∪ s
      | _ => f1)

/-- `SelectiveQuerySet._prepare_qs`: select pass, then prefetch pass, then
the only pass last (it must see the final `select_related` set). -/
def prepareQsSel (nullable : String → Bool) (t : FieldTriple) (q : DQuery) : DQuery :=
  performOnlySel
    (performPrefetchRelatedSel
      (performSelectRelatedSel nullable q t.select) (Finset.sort (· ≤ ·) t.prefetch))
    t.only

/-- The `_iterable_class` attribute of a `SelectiveQuerySet`, as far as
`_optimize` distinguishes it. -/
inductive IterClass
  | modelIt
  | loggingModelIt
  | otherIt
deriving DecidableEq

/-- Queryset-level state of a `SelectiveQuerySet` (query.py). -/
structure SQS where
  loc : ObjectLocation
  liveOpt : Bool
  regFields : FieldTriple
  hasResultCache : Bool
  query : DQuery
  iter : IterClass
deriving DecidableEq

/-- `SelectiveQuerySet._optimize` (query.py): a no-op unless the location is
truthy, no result cache exists yet and there is no flat projection; then,
when live optimization is on, rewrite the plan from the registry triple, and
switch a plain `ModelIterable` to the logging iterable.  (The offsite
`_log_qs` branch only writes the separate code registry and does not touch
the queryset state modelled here.) -/
def optimizeSel (nullable : String → Bool) (qs : SQS) : SQS :=
  if qs.loc.present ∧ ¬ qs.hasResultCache ∧ ¬ qs.query.fieldsProj then
    let qs1 :=
      if qs.liveOpt then { qs with query := prepareQsSel nullable qs.regFields qs.query } else qs
    { qs1 with iter := if qs1.iter = IterClass.modelIt then IterClass.loggingModelIt else qs1.iter }
  else qs

/-! ## Deferred writes (`transaction.py`, `monkey_patching.py`)

The deferred-write scope is modelled with an explicit world state: the
`ModelRegistry` pending lists (a cache keyed by the fully-qualified model
name, plus its key index), and logs of the rows written through
`bulk_create`, `bulk_update` and the untouched `Model.save`.  A record
carries an identity, its model key, whether its model uses
`OptimizerQuerySet`, its `_state.adding` flag and its primary-key slot. -/

/-- The primary-key slot of a live record: `None`, a concrete value, or the
`DeferredPK` placeholder installed by `_delayed_save`. -/
inductive PkSlot
  | noPk
  | concrete (n : Nat)
  | deferredPk
deriving DecidableEq

/-- A django model instance, as far as the deferred-write code inspects it. -/
structure MObj where
  oid : Nat
  modelKey : String
  isOptimizer : Bool
  adding : Bool
  pkVal : PkSlot
deriving DecidableEq

/-- World state threaded through the deferred-write operations. -/
structure TWorld where
  /-- `ModelRegistry` cache: model key to pending detached copies. -/
  pending : List (String × List MObj)
  /-- `ModelRegistry` key index. -/
  pendingKeys : List String
  /-- Rows written through `bulk_create` (single-row inserts included). -/
  inserted : List MObj
  /-- Rows written through `bulk_update`. -/
  updated : List MObj
  /-- Rows written through the original (non-gathering) `Model.save`. -/
  immediate : List MObj
  /-- Next primary key the storage backend will hand out. -/
  nextPk : Nat
deriving DecidableEq

/-- A world with nothing pending and nothing written. -/
def emptyWorld : TWorld := ⟨[], [], [], [], [], 100⟩

/-- `ModelRegistry.get` (through `Registry.get` with `initial_value=[]`): a
stored empty list is falsy in Python and falls back to the initial empty
list as well, which coincides with the missing-key fallback. -/
def mrGet (w : TWorld) (key : String) : List MObj :=
  (lookupStore w.pending key).getD []

/-- `ModelRegistry.add(obj)` (through `Registry.set` with modifier
`lambda x: x + [obj]`): append the detached copy to the pending list of the
model key and record the key in the key index when new. -/
def mrAdd (w : TWorld) (key : String) (obj : MObj) : TWorld :=
  { w with
    pending := storeSet w.pending key (mrGet w key ++ [obj])
    pendingKeys := if key ∈ w.pendingKeys then w.pendingKeys else w.pendingKeys ++ [key] }

/-- `ModelRegistry.pop_pair(key)`: read the pair, then `remove_key` (Python
`list.remove`, first occurrence; the call sites always hold a present key)
and `cache.delete(key)`.  The whole per-model pending list disappears. -/
def mrPopPair (w : TWorld) (key : String) : TWorld × List MObj :=
  ({ w with
      pending := (w.pending.filter (fun kv => kv.1 ≠ key))
      pendingKeys := w.pendingKeys.erase key },
    mrGet w key)

/-- `get_db_instance(obj)`: a detached shallow copy with the wrapper
attributes popped; the fields the model tracks are unchanged. -/
def getDbInstance (obj : MObj) : MObj := obj

/-- `_delayed_save` (the gathering `Model.save` installed by
`replace_save_method`): records of models without an `OptimizerQuerySet`
manager take the original save path; for every other record — with no look
at its primary key — fire the signals, append the detached copy to the
pending list, and replace the primary-key attribute by a `DeferredPK`
placeholder.  Returns the new world and the live record. -/
def delayedSave (w : TWorld) (obj : MObj) : TWorld × MObj :=
  if ¬ obj.isOptimizer then
    ({ w with immediate := w.immediate ++ [obj] }, obj)
  else
    (mrAdd w obj.modelKey (getDbInstance obj), { obj with pkVal := PkSlot.deferredPk })

/-- `DeferredPK._save_and_retrieve_pk`: single-row `bulk_create` of the
detached copy with its primary key cleared (the storage backend assigns and
returns the next key; the re-query fallback for backends that return no key
is not modelled), then `model_registry.pop_pair` on the model key — which
drops the entire per-model pending list, not just the copy of this record —
and finally cache the concrete key on the live record. -/
def saveAndRetrievePk (w : TWorld) (obj : MObj) : TWorld × MObj × Nat :=
  let dbInstance := { getDbInstance obj with pkVal := PkSlot.noPk }
  let newPk := w.nextPk
  let dbRow := { dbInstance with pkVal := PkSlot.concrete newPk }
  let w1 := { w with inserted := w.inserted ++ [dbRow], nextPk := w.nextPk + 1 }
  let w2 := (mrPopPair w1 obj.modelKey).1
  (w2, { obj with pkVal := PkSlot.concrete newPk }, newPk)

/-- `DeferredPK._get_value`: when the instance dict still holds the
placeholder (the `isinstance(..., DeferredPK)` test), force the single-row
insert and cache its key; any other slot content — a concrete key or `None`
— is returned as it is. -/
def getValue (w : TWorld) (obj : MObj) : TWorld × MObj × Option Nat :=
  match obj.pkVal with
  | PkSlot.deferredPk =>
    let r := saveAndRetrievePk w obj
    (r.1, r.2.1, some r.2.2)
  | PkSlot.concrete n => (w, obj, some n)
  | PkSlot.noPk => (w, obj, none)

/-- The attribute names a `DeferredPK` object exposes: the two attributes
set in `__init__` plus the methods defined by the class in
`transaction.py`. -/
def deferredPKAttrNames : List String :=
  ["instance", "field_name", "__init__", "_save_and_retrieve_pk", "_get_value",
    "__get__", "__int__", "__str__"]

/-- Python exceptions surfacing in the deferred-write model. -/
inductive PyErr
  | attributeError
deriving DecidableEq

/-- Reading the primary-key attribute of a live record through the patched
`models.Model.__getattribute__` (`monkey_patching.deferred_getattribute`):
`object.__getattribute__` yields the slot content, and when that content is
a `DeferredPK` the hook invokes `val.get_value()` — an attribute lookup of
the name `get_value` on the `DeferredPK` object, which raises
`AttributeError` when the class defines no such attribute. -/
def readPkAttr (w : TWorld) (obj : MObj) : Except PyErr (TWorld × MObj × Option Nat) :=
  match obj.pkVal with
  | PkSlot.deferredPk =>
    if "get_value" ∈ deferredPKAttrNames then Except.ok (getValue w obj)
    else Except.error PyErr.attributeError
  | PkSlot.concrete n => Except.ok (w, obj, some n)
  | PkSlot.noPk => Except.ok (w, obj, none)

/-- `perform_delayed_db_queries()` with no model argument (the scope-exit
flush): `pop_all` every pending pair and clear the cache, then per model
partition the pending records by `_state.adding` and run one `bulk_create`
over the adding ones and one `bulk_update` over the rest. -/
def performDelayedDbQueries (w : TWorld) : TWorld :=
  let pairs := w.pendingKeys.map (fun k => (k, mrGet w k))
  let w0 := { w with pending := [], pendingKeys := [] }
  pairs.foldl
    (fun acc kv =>
      { acc with
        inserted := acc.inserted ++ kv.2.filter (fun o => o.adding)
        updated := acc.updated ++ kv.2.filter (fun o => ¬ o.adding) })
    w0

/-! ## The global save hook (`replace_save_method` / `rollback_save_method`)

The process-wide `models.Model.save` slot and the `_default_save` stash. -/

/-- The two functions the save slot can hold. -/
inductive SaveFn
  | original
  | delayed
deriving DecidableEq

/-- The process-wide hook state: the current `models.Model.save` and the
`models.Model._default_save` attribute (absent before any activation and
after `del`). -/
structure SaveHookState where
  save : SaveFn
  defaultSave : Option SaveFn
deriving DecidableEq

/-- The hook state of a fresh process: `save` is the original method and no
`_default_save` attribute exists. -/
def initialHook : SaveHookState := ⟨SaveFn.original, none⟩

/-- `replace_save_method` (run by `DelayedAtomic.__enter__`): stash the
current `models.Model.save` in `_default_save` — whatever it currently is —
and install the gathering variant.  The function is total: no guard or
assertion inspects the current state. -/
def replaceSaveMethod (s : SaveHookState) : SaveHookState :=
  { save := SaveFn.delayed, defaultSave := some s.save }

/-- `rollback_save_method` (run by `DelayedAtomic.__exit__`): restore
`models.Model.save` from `_default_save` and delete the stash; reading the
attribute raises `AttributeError` when it is absent. -/
def rollbackSaveMethod (s : SaveHookState) : Except PyErr SaveHookState :=
  match s.defaultSave with
  | none => Except.error PyErr.attributeError
  | some f => Except.ok ⟨f, none⟩

/-! ## Helper lemmas about the registry model -/

theorem lookup_storeSet_self {α : Type} (s : List (String × α)) (k : String) (v : α) :
    lookupStore (storeSet s k v) k = some v := by
  induction s with
  | nil => simp [storeSet, lookupStore]
  | cons kv rest ih =>
    obtain ⟨k1, v1⟩ := kv
    by_cases h : k1 = k
    · simp [storeSet, lookupStore, h]
    · simp [storeSet, lookupStore, h, ih]

theorem lookup_storeSet_ne {α : Type} (s : List (String × α)) (k k1 : String) (v : α)
    (h : k1 ≠ k) : lookupStore (storeSet s k v) k1 = lookupStore s k1 := by
  induction s with
  | nil => simp [storeSet, lookupStore, Ne.symm h]
  | cons kv rest ih =>
    obtain ⟨k2, v2⟩ := kv
    by_cases h2 : k2 = k
    · subst h2
      simp [storeSet, lookupStore, Ne.symm h]
    · by_cases h3 : k2 = k1
      · subst h3
        simp [storeSet, lookupStore, h2]
      · simp [storeSet, lookupStore, h2, h3, ih]

theorem FieldTriple.cat_addAt (t : FieldTriple) (i : Nat) (f : String) (j : Nat) :
    (t.addAt i f).cat j = if j = i ∧ i < 3 then insert f (t.cat j) else t.cat j := by
  rcases t with ⟨sel, pre, onl⟩
  unfold FieldTriple.cat FieldTriple.addAt
  by_cases h0 : j = 0
  · subst h0
    by_cases hi : i = 0
    · subst hi; simp
    · simp [hi, Ne.symm hi]
  · by_cases h1 : j = 1
    · subst h1
      by_cases hi : i = 1
      · subst hi; simp
      · simp [hi, Ne.symm hi]
    · by_cases h2 : j = 2
      · subst h2
        by_cases hi : i = 2
        · subst hi; simp
        · simp [hi, Ne.symm hi]
      · have hni : ¬ (j = i ∧ i < 3) := by
          rintro ⟨rfl, hlt⟩
          omega
        simp [h0, h1, h2, hni]

theorem FieldTriple.cat_subset_addAt (t : FieldTriple) (i : Nat) (f : String) (j : Nat) :
    t.cat j ⊆ (t.addAt i f).cat j := by
  rw [FieldTriple.cat_addAt]
  split_ifs
  · exact Finset.subset_insert f (t.cat j)
  · exact Finset.Subset.refl _

theorem Registry.set_store (st : RegistryState) (key : String)
    (modifier : FieldTriple → FieldTriple) :
    (Registry.set st key modifier).1.store
      = storeSet st.store key (modifier (Registry.get st key)) := by
  unfold Registry.set Registry.addKey
  split_ifs <;> rfl

theorem Registry.set_keys (st : RegistryState) (key : String)
    (modifier : FieldTriple → FieldTriple) :
    (Registry.set st key modifier).1.keys
      = if key ∈ st.keys then st.keys else st.keys ++ [key] := by
  unfold Registry.set Registry.addKey
  split_ifs <;> rfl

theorem Registry.get_set_self (st : RegistryState) (key : String)
    (modifier : FieldTriple → FieldTriple) :
    Registry.get (Registry.set st key modifier).1 key = modifier (Registry.get st key) := by
  unfold Registry.get
  rw [Registry.set_store, lookup_storeSet_self]
  rfl

theorem Registry.get_set_ne (st : RegistryState) (key k1 : String)
    (modifier : FieldTriple → FieldTriple) (h : k1 ≠ key) :
    Registry.get (Registry.set st key modifier).1 k1 = Registry.get st k1 := by
  unfold Registry.get
  rw [Registry.set_store, lookup_storeSet_ne _ _ _ _ h]

theorem FieldRegistry.get_add_self (st : RegistryState) (loc : ObjectLocation)
    (i : Nat) (f : String) :
    Registry.get (FieldRegistry.add st loc i f).1 loc.key
      = (Registry.get st loc.key).addAt i f :=
  Registry.get_set_self st loc.key _

theorem FieldRegistry.get_add_ne (st : RegistryState) (loc : ObjectLocation)
    (i : Nat) (f : String) (k : String) (h : k ≠ loc.key) :
    Registry.get (FieldRegistry.add st loc i f).1 k = Registry.get st k :=
  Registry.get_set_ne st loc.key k _ h

theorem FieldRegistry.get_add_mono (st : RegistryState) (loc : ObjectLocation)
    (i : Nat) (f : String) (k : String) (j : Nat) :
    (Registry.get st k).cat j ⊆ (Registry.get (FieldRegistry.add st loc i f).1 k).cat j := by
  by_cases h : k = loc.key
  · subst h
    rw [FieldRegistry.get_add_self]
    exact FieldTriple.cat_subset_addAt _ i f j
  · rw [FieldRegistry.get_add_ne st loc i f k h]

/-- A registry interaction of the kind the claims range over: one
`FieldRegistry.add` call (location, category index, field name). -/
def AddOp : Type := ObjectLocation × Nat × String

/-- Replay a sequence of `FieldRegistry.add` calls. -/
def applyAdds (ops : List AddOp) (st : RegistryState) : RegistryState :=
  ops.foldl (fun s o => (FieldRegistry.add s o.1 o.2.1 o.2.2).1) st

theorem applyAdds_mono (ops : List AddOp) :
    ∀ (st : RegistryState) (k : String) (j : Nat),
      (Registry.get st k).cat j ⊆ (Registry.get (applyAdds ops st) k).cat j := by
  induction ops with
  | nil => intro st k j; exact Finset.Subset.refl _
  | cons o rest ih =>
    intro st k j
    exact Finset.Subset.trans
      (FieldRegistry.get_add_mono st o.1 o.2.1 o.2.2 k j)
      (ih ((FieldRegistry.add st o.1 o.2.1 o.2.2).1) k j)

/-! ## Helper lemmas about the csv round trip -/

theorem insSorted_perm (x : String) (l : List String) :
    (insSorted x l).Perm (x :: l) := by
  induction l with
  | nil => exact List.Perm.refl _
  | cons y ys ih =>
    unfold insSorted
    split_ifs
    · exact List.Perm.refl _
    · exact List.Perm.trans (List.Perm.cons y ih) (List.Perm.swap x y ys)

theorem sortKeys_perm (l : List String) : (sortKeys l).Perm l := by
  induction l with
  | nil => exact List.Perm.refl _
  | cons a as ih =>
    exact List.Perm.trans (insSorted_perm a (sortKeys as)) (List.Perm.cons a ih)

theorem mem_sortKeys (k : String) (l : List String) : k ∈ sortKeys l ↔ k ∈ l :=
  (sortKeys_perm l).mem_iff

theorem rowToPair_pairToRow (k : String) (t : FieldTriple) :
    rowToPair (pairToRow k t) = (k, t) := by
  rcases t with ⟨sel, pre, onl⟩
  unfold rowToPair pairToRow
  simp [Finset.sort_toFinset]

theorem fromCsv_fold_keys (rows : List CsvRow) :
    ∀ st : RegistryState,
      (rows.foldl fromCsvStep st).keys = st.keys ++ rows.map (fun r => r.key) := by
  induction rows with
  | nil => intro st; simp
  | cons r rest ih =>
    intro st
    simp only [List.foldl_cons, List.map_cons]
    rw [ih (fromCsvStep st r)]
    show (st.keys ++ [r.key]) ++ rest.map (fun r => r.key) = _
    simp

theorem fromCsv_fold_lookup_not_mem (rows : List CsvRow) :
    ∀ (st : RegistryState) (k : String), k ∉ rows.map (fun r => r.key) →
      lookupStore (rows.foldl fromCsvStep st).store k = lookupStore st.store k := by
  induction rows with
  | nil => intro st k _; rfl
  | cons r rest ih =>
    intro st k hk
    simp only [List.map_cons, List.mem_cons, not_or] at hk
    simp only [List.foldl_cons]
    rw [ih (fromCsvStep st r) k hk.2]
    show lookupStore (storeSet st.store r.key (rowToPair r).2) k = _
    exact lookup_storeSet_ne _ _ _ _ hk.1

theorem fromCsv_fold_lookup_mem (rows : List CsvRow) :
    ∀ (st : RegistryState) (k : String) (v : FieldTriple),
      (∀ r ∈ rows, r.key = k → (rowToPair r).2 = v) →
      k ∈ rows.map (fun r => r.key) →
      lookupStore (rows.foldl fromCsvStep st).store k = some v := by
  induction rows with
  | nil => intro st k v _ hk; simp at hk
  | cons r rest ih =>
    intro st k v hall hk
    simp only [List.foldl_cons]
    by_cases hmem : k ∈ rest.map (fun r => r.key)
    · exact ih (fromCsvStep st r) k v
        (fun r2 h2 => hall r2 (List.mem_cons_of_mem r h2)) hmem
    · have hkey : r.key = k := by
        simp only [List.map_cons, List.mem_cons] at hk
        rcases hk with h | h
        · exact h.symm
        · exact absurd h hmem
      rw [fromCsv_fold_lookup_not_mem rest (fromCsvStep st r) k hmem]
      show lookupStore (storeSet st.store r.key (rowToPair r).2) k = some v
      rw [hall r (List.mem_cons_self r rest) hkey] at *
      rw [← hkey] at *
      exact lookup_storeSet_self _ _ _

/-! ## Claim C1 — primary key in the restricted-column set -/

/-- The top-level keys of a `select_related` state, the contribution of the
eager-join set to the restricted-column set. -/
def selKeys : SelectRelatedState → Finset String
  | SelectRelatedState.flds s => s
  | _ => ∅

/-- Claim C1, counterexample: `SelectiveQuerySet._perform_only` (query.py)
adds no primary-key column.  On a queryset with no joins, no prior deferral
and the non-empty registry set `{name}`, the computed restricted-column set
is exactly `{name}`, which does not contain the `id` primary-key column. -/
theorem c1_counterexample :
    onlyFieldsSelective ⟨SelectRelatedState.noneSel, [], ∅, true, false⟩ {"name"}
      = some {"name"}
    ∧ "id" ∉ ({"name"} : Finset String) := by
  constructor
  · unfold onlyFieldsSelective
    rw [if_neg (by decide : ¬ ({"name"} : Finset String) = ∅)]
    simp
  · decide

/-- Claim C1, amended: the column-restriction pass of
`OptimizerQuerySet._perform_only` (models.py) computes, for every query
without a flat projection and every `only` field set, the restricted-column
set `only ∪ {id} ∪ (top-level eager-join keys when the join state is a
mapping)`; in particular the default-named primary-key column `id` is always
a member.  (`SelectiveQuerySet._perform_only` of query.py guarantees no such
membership, see the counterexample.) -/
theorem c1_optimizer_only_includes_pk (q : DQuery) (fields : Finset String)
    (h : q.fieldsProj = false) :
    onlyFieldsOptimizer q fields
      = some ((fields ∪ {"id"}) ∪ selKeys q.selectRelated)
    ∧ "id" ∈ (fields ∪ {"id"}) ∪ selKeys q.selectRelated := by
  constructor
  · unfold onlyFieldsOptimizer
    rw [h]
    cases q.selectRelated <;> simp [selKeys]
  · simp

/-- Witness for C1 at a concrete query and field set. -/
theorem c1_witness :
    onlyFieldsOptimizer ⟨SelectRelatedState.noneSel, [], ∅, true, false⟩ {"name"}
      = some (({"name"} ∪ {"id"}) ∪ selKeys SelectRelatedState.noneSel)
    ∧ "id" ∈ ({"name"} ∪ {"id"} : Finset String) ∪ selKeys SelectRelatedState.noneSel :=
  c1_optimizer_only_includes_pk ⟨SelectRelatedState.noneSel, [], ∅, true, false⟩ {"name"} rfl

/-! ## Claim C2 — union monotonicity of the field registry -/

/-- Claim C2: registry field sets grow monotonically.  For every starting
state, location, category index and field name: the add is visible in the
added category; across any later sequence of add operations no category set
of any key ever shrinks; the added field survives any later operations; and
one add leaves the other categories of the same key, and all categories of
every other key, exactly as they were. -/
theorem c2_registry_union_monotone (st : RegistryState) (loc : ObjectLocation)
    (i : Nat) (f : String) (hi : i < 3) :
    f ∈ (Registry.get (FieldRegistry.add st loc i f).1 loc.key).cat i
    ∧ (∀ (ops : List AddOp) (k : String) (j : Nat),
        (Registry.get st k).cat j ⊆ (Registry.get (applyAdds ops st) k).cat j)
    ∧ (∀ ops : List AddOp,
        f ∈ (Registry.get (applyAdds ops (FieldRegistry.add st loc i f).1) loc.key).cat i)
    ∧ (∀ j : Nat, j ≠ i →
        (Registry.get (FieldRegistry.add st loc i f).1 loc.key).cat j
          = (Registry.get st loc.key).cat j)
    ∧ (∀ k : String, k ≠ loc.key →
        Registry.get (FieldRegistry.add st loc i f).1 k = Registry.get st k) := by
  have h1 : f ∈ (Registry.get (FieldRegistry.add st loc i f).1 loc.key).cat i := by
    rw [FieldRegistry.get_add_self, FieldTriple.cat_addAt, if_pos ⟨rfl, hi⟩]
    exact Finset.mem_insert_self f _
  refine ⟨h1, ?_, ?_, ?_, ?_⟩
  · intro ops k j
    exact applyAdds_mono ops st k j
  · intro ops
    exact applyAdds_mono ops _ loc.key i h1
  · intro j hj
    rw [FieldRegistry.get_add_self, FieldTriple.cat_addAt, if_neg]
    rintro ⟨h, _⟩
    exact hj h
  · intro k hk
    exact FieldRegistry.get_add_ne st loc i f k hk

/-- Witness for C2: a concrete add to the `only` category of a fresh
registry is visible through `get`, and the untouched `select` category keeps
its prior (empty) value. -/
theorem c2_witness :
    "name" ∈ (Registry.get (FieldRegistry.add emptyRegistry
        ⟨"./app/models", "create_report", "report", true⟩ 2 "name").1
        (ObjectLocation.key ⟨"./app/models", "create_report", "report", true⟩)).cat 2
    ∧ (Registry.get (FieldRegistry.add emptyRegistry
        ⟨"./app/models", "create_report", "report", true⟩ 2 "name").1
        (ObjectLocation.key ⟨"./app/models", "create_report", "report", true⟩)).cat 0
      = (Registry.get emptyRegistry
        (ObjectLocation.key ⟨"./app/models", "create_report", "report", true⟩)).cat 0 := by
  have h := c2_registry_union_monotone emptyRegistry
    ⟨"./app/models", "create_report", "report", true⟩ 2 "name" (by decide)
  exact ⟨h.1, h.2.2.2.1 0 (by decide)⟩

/-! ## Claim C3 — first-touch initialization -/

/-- Claim C3, counterexample: the first `get` for an absent key returns the
fresh empty triple but persists nothing: the state after the call has no
entry for the key in the store and no key in the key index, contradicting
the claimed first-touch initialization performed by `get`. -/
theorem c3_counterexample :
    Registry.getS emptyRegistry "./app/models/create_report/report"
      = (emptyTriple, emptyRegistry)
    ∧ "./app/models/create_report/report"
        ∉ (Registry.getS emptyRegistry "./app/models/create_report/report").2.keys
    ∧ lookupStore (Registry.getS emptyRegistry "./app/models/create_report/report").2.store
        "./app/models/create_report/report" = none := by
  refine ⟨rfl, ?_, rfl⟩
  decide

/-- Claim C3, amended: `Registry.get` is read-only (it returns the stored
triple, or the fresh empty triple on an absent key, and leaves the state
unchanged); the initialization the claim describes happens on the first
`Registry.set` for a key (as called by `FieldRegistry.add`): it persists the
written triple under the key and records the key in the key index, at most
once — a `set` on a key already indexed does not re-add it.  Afterwards the
key is present in both the store and the key index. -/
theorem c3_get_reads_set_initializes (st : RegistryState) (key : String)
    (modifier : FieldTriple → FieldTriple) :
    (Registry.getS st key).2 = st
    ∧ (lookupStore st.store key = none → (Registry.getS st key).1 = emptyTriple)
    ∧ lookupStore (Registry.set st key modifier).1.store key
        = some ((Registry.set st key modifier).2)
    ∧ key ∈ (Registry.set st key modifier).1.keys
    ∧ (key ∉ st.keys → (Registry.set st key modifier).1.keys = st.keys ++ [key])
    ∧ (key ∈ st.keys → (Registry.set st key modifier).1.keys = st.keys) := by
  have hv : (Registry.set st key modifier).2 = modifier (Registry.get st key) := rfl
  refine ⟨rfl, ?_, ?_, ?_, ?_, ?_⟩
  · intro h
    show Registry.get st key = emptyTriple
    unfold Registry.get
    rw [h]
    rfl
  · rw [hv, Registry.set_store]
    exact lookup_storeSet_self _ _ _
  · rw [Registry.set_keys]
    split_ifs with h
    · exact h
    · simp
  · intro h
    rw [Registry.set_keys, if_neg h]
  · intro h
    rw [Registry.set_keys, if_pos h]

/-- Witness for C3 at a concrete key and modifier on the fresh registry. -/
theorem c3_witness :
    lookupStore (Registry.set emptyRegistry "k" (fun t => t)).1.store "k"
      = some ((Registry.set emptyRegistry "k" (fun t => t)).2)
    ∧ (Registry.set emptyRegistry "k" (fun t => t)).1.keys
      = emptyRegistry.keys ++ ["k"] := by
  have h := c3_get_reads_set_initializes emptyRegistry "k" (fun t => t)
  exact ⟨h.2.2.1, h.2.2.2.2.1 (by decide)⟩

/-! ## Claim C9 — csv round trip -/

/-- Claim C9: exporting a registry to the csv format and importing the rows
into a fresh empty registry reproduces, for every key of the original key
index, the identical stored triple, and yields a key index with exactly the
same membership. -/
theorem c9_csv_roundtrip (st : RegistryState) :
    (∀ k, k ∈ st.keys → Registry.get (fromCsv (toCsv st)) k = Registry.get st k)
    ∧ (∀ k, k ∈ (fromCsv (toCsv st)).keys ↔ k ∈ st.keys) := by
  have hcomp : ((fun r : CsvRow => r.key) ∘ fun k => pairToRow k (Registry.get st k)) = id :=
    funext (fun k => rfl)
  have hmap : (toCsv st).map (fun r => r.key) = sortKeys st.keys := by
    unfold toCsv
    rw [List.map_map, hcomp, List.map_id]
  constructor
  · intro k hk
    have hk2 : k ∈ (toCsv st).map (fun r => r.key) := by
      rw [hmap]
      exact (mem_sortKeys k st.keys).mpr hk
    have hval : ∀ r ∈ toCsv st, r.key = k → (rowToPair r).2 = Registry.get st k := by
      intro r hr hkey
      unfold toCsv at hr
      obtain ⟨k1, hk1, rfl⟩ := List.mem_map.mp hr
      have hkk : k1 = k := hkey
      subst hkk
      rw [rowToPair_pairToRow]
    have hlook := fromCsv_fold_lookup_mem (toCsv st) emptyRegistry k (Registry.get st k)
      hval hk2
    show (lookupStore (fromCsv (toCsv st)).store k).getD emptyTriple = Registry.get st k
    unfold fromCsv
    rw [hlook]
    rfl
  · intro k
    show k ∈ ((toCsv st).foldl fromCsvStep emptyRegistry).keys ↔ k ∈ st.keys
    rw [fromCsv_fold_keys, hmap]
    show k ∈ [] ++ sortKeys st.keys ↔ k ∈ st.keys
    rw [List.nil_append]
    exact mem_sortKeys k st.keys

/-- Witness for C9 on a concrete one-key registry. -/
theorem c9_witness :
    Registry.get (fromCsv (toCsv ⟨[("a", ⟨∅, ∅, {"name"}⟩)], ["a"]⟩)) "a"
      = Registry.get ⟨[("a", ⟨∅, ∅, {"name"}⟩)], ["a"]⟩ "a" :=
  (c9_csv_roundtrip ⟨[("a", ⟨∅, ∅, {"name"}⟩)], ["a"]⟩).1 "a" (by decide)

/-! ## Claim C4 — deferred primary-key resolution -/

theorem mrGet_mrAdd_self (w : TWorld) (k : String) (o : MObj) :
    mrGet (mrAdd w k o) k = mrGet w k ++ [o] := by
  show (lookupStore (storeSet w.pending k (mrGet w k ++ [o])) k).getD [] = mrGet w k ++ [o]
  rw [lookup_storeSet_self]
  rfl

/-- A newly created record of an optimizer model, saved inside the deferred
scope. -/
def c4Obj : MObj := ⟨1, "app.models.Report", true, true, PkSlot.noPk⟩

/-- The world after the deferred save of `c4Obj`. -/
def c4World1 : TWorld := (delayedSave emptyWorld c4Obj).1

/-- The live record after the deferred save: its pk slot holds the
`DeferredPK` placeholder. -/
def c4Live : MObj := (delayedSave emptyWorld c4Obj).2

/-- The result of running `DeferredPK._get_value` on the live record. -/
def c4Resolved : TWorld × MObj × Option Nat := getValue c4World1 c4Live

/-- Claim C4: the claim matches the intent of `DeferredPK` (its docstring
and `_get_value`), but the installed read hook never reaches it —
`monkey_patching.deferred_getattribute` invokes `val.get_value()` while the
class only defines `_get_value`, so reading the primary key of a
deferred-saved record raises `AttributeError` instead of resolving it.  The
underscore method itself does behave as claimed: the first call performs
exactly one single-row insert and caches the concrete key on the live
record, and a second call returns the same value with no further insert. -/
theorem c4_deferred_pk_resolution_bug :
    deferredPKAttrNames.contains "get_value" = false
    ∧ readPkAttr c4World1 c4Live = Except.error PyErr.attributeError
    ∧ c4Resolved.1.inserted.length = 1
    ∧ c4Resolved.2.2 = some 100
    ∧ c4Resolved.2.1.pkVal = PkSlot.concrete 100
    ∧ getValue c4Resolved.1 c4Resolved.2.1
      = (c4Resolved.1, c4Resolved.2.1, c4Resolved.2.2) := by
  exact ⟨rfl, rfl, rfl, rfl, rfl, rfl⟩

/-! ## Claim C5 — which saves are deferred -/

/-- An optimizer-model record that already has a concrete primary key: the
update case of the claim. -/
def c5Obj : MObj := ⟨7, "app.models.Report", true, false, PkSlot.concrete 42⟩

/-- Claim C5, counterexample: saving an optimizer-model record that already
has a concrete primary key performs no immediate write at all; the record is
appended to the pending list and its primary key is replaced by the
placeholder — contradicting the claimed normal immediate write for the
update case. -/
theorem c5_counterexample :
    (delayedSave emptyWorld c5Obj).1.immediate = []
    ∧ mrGet (delayedSave emptyWorld c5Obj).1 "app.models.Report" = [c5Obj]
    ∧ (delayedSave emptyWorld c5Obj).2.pkVal = PkSlot.deferredPk := by
  exact ⟨rfl, rfl, rfl⟩

/-- Claim C5, amended: `_delayed_save` branches on the model class, never on
the primary key.  A record of a model without an `OptimizerQuerySet` manager
takes the original immediate save; every record of an optimizer model —
update case included — is appended to its model pending list as a detached
copy and gets its primary key replaced by the forwarding placeholder, with
no immediate write.  (The update case is only separated later, at flush
time, by partitioning on `_state.adding`.) -/
theorem c5_delayed_save_branches (w : TWorld) (obj : MObj) :
    (obj.isOptimizer = false →
      delayedSave w obj = ({ w with immediate := w.immediate ++ [obj] }, obj))
    ∧ (obj.isOptimizer = true →
        (delayedSave w obj).1.immediate = w.immediate
        ∧ mrGet (delayedSave w obj).1 obj.modelKey = mrGet w obj.modelKey ++ [obj]
        ∧ (delayedSave w obj).2 = { obj with pkVal := PkSlot.deferredPk }) := by
  constructor
  · intro h
    unfold delayedSave
    simp [h]
  · intro h
    have hval : delayedSave w obj
        = (mrAdd w obj.modelKey obj, { obj with pkVal := PkSlot.deferredPk }) := by
      unfold delayedSave getDbInstance
      simp [h]
    rw [hval]
    exact ⟨rfl, mrGet_mrAdd_self w obj.modelKey obj, rfl⟩

/-- Witness for C5 on a concrete newly created optimizer-model record. -/
theorem c5_witness :
    (delayedSave emptyWorld ⟨1, "app.models.Comment", true, true, PkSlot.noPk⟩).1.immediate
      = emptyWorld.immediate
    ∧ mrGet (delayedSave emptyWorld ⟨1, "app.models.Comment", true, true, PkSlot.noPk⟩).1
        "app.models.Comment"
      = mrGet emptyWorld "app.models.Comment"
        ++ [⟨1, "app.models.Comment", true, true, PkSlot.noPk⟩]
    ∧ (delayedSave emptyWorld ⟨1, "app.models.Comment", true, true, PkSlot.noPk⟩).2
      = { (⟨1, "app.models.Comment", true, true, PkSlot.noPk⟩ : MObj) with
          pkVal := PkSlot.deferredPk } :=
  (c5_delayed_save_branches emptyWorld ⟨1, "app.models.Comment", true, true, PkSlot.noPk⟩).2 rfl

/-! ## Claim C6 — forced early resolution and the pending list -/

/-- First newly created record of the model. -/
def c6A : MObj := ⟨1, "app.models.Report", true, true, PkSlot.noPk⟩

/-- Second newly created record of the same model. -/
def c6B : MObj := ⟨2, "app.models.Report", true, true, PkSlot.noPk⟩

/-- The world after both deferred saves: both copies are pending. -/
def c6W2 : TWorld := (delayedSave (delayedSave emptyWorld c6A).1 c6B).1

/-- The live first record, carrying the placeholder. -/
def c6LiveA : MObj := (delayedSave emptyWorld c6A).2

/-- The world after the placeholder of the first record is force-resolved. -/
def c6W3 : TWorld := (getValue c6W2 c6LiveA).1

/-- Claim C6: the claim matches the intent recorded in the source (the
`FIXME delete one equal object` comment in `_save_and_retrieve_pk` and the
existing one-record `ModelRegistry.delete`), but the code calls
`ModelRegistry.pop_pair`, which removes the whole per-model pending list.
With two records pending, force-resolving the first leaves nothing pending:
the second record is dropped, the scope-exit flush inserts and updates
nothing, and only the forced single-row insert of the first record ever
reaches storage. -/
theorem c6_pop_pair_drops_pending_bug :
    mrGet c6W2 "app.models.Report" = [c6A, c6B]
    ∧ mrGet c6W3 "app.models.Report" = []
    ∧ c6W3.pendingKeys = []
    ∧ (performDelayedDbQueries c6W3).inserted.map (fun o => o.oid) = [1]
    ∧ ((performDelayedDbQueries c6W3).inserted.map (fun o => o.oid)).contains 2 = false
    ∧ (performDelayedDbQueries c6W3).updated = [] := by
  exact ⟨rfl, rfl, rfl, rfl, rfl, rfl⟩

/-! ## Claim C7 — falsy locations and the registry -/

/-- Claim C7, counterexample: `FieldRegistry.add` has no falsy-location
guard.  Adding a field under a falsy (empty) location mutates the fresh
registry: the empty location string is recorded in the key index and a
triple is written under it. -/
theorem c7_counterexample :
    (FieldRegistry.add emptyRegistry ⟨"", "", "", false⟩ FieldRegistry.ONLY "name").1
      ≠ emptyRegistry
    ∧ (FieldRegistry.add emptyRegistry ⟨"", "", "", false⟩ FieldRegistry.ONLY "name").1.keys
      = ["//"]
    ∧ lookupStore
        (FieldRegistry.add emptyRegistry ⟨"", "", "", false⟩ FieldRegistry.ONLY "name").1.store
        "//" = some ⟨∅, ∅, {"name"}⟩ := by
  refine ⟨?_, by decide, by decide⟩
  decide

/-- Claim C7, amended: a falsy Location only disables the plan-rewrite step:
`_optimize` leaves the queryset unchanged.  The registry interaction itself
is not guarded — `FieldRegistry.add` called with a falsy location still
records the location string in the key index and writes the updated triple
under it (and `SelectiveQuerySet.__init__` performs a registry `get` for
every location, falsy included). -/
theorem c7_falsy_location_skips_rewrite_not_registry :
    (∀ (nullable : String → Bool) (qs : SQS), qs.loc.present = false →
      optimizeSel nullable qs = qs)
    ∧ (∀ (st : RegistryState) (loc : ObjectLocation) (i : Nat) (f : String),
        loc.present = false →
          loc.key ∈ (FieldRegistry.add st loc i f).1.keys
          ∧ Registry.get (FieldRegistry.add st loc i f).1 loc.key
              = (Registry.get st loc.key).addAt i f) := by
  constructor
  · intro nullable qs h
    simp [optimizeSel, h]
  · intro st loc i f _
    constructor
    · show loc.key ∈ (Registry.set st loc.key _).1.keys
      rw [Registry.set_keys]
      split_ifs with hmem
      · exact hmem
      · simp
    · exact FieldRegistry.get_add_self st loc i f

/-- Witness for C7 at a concrete falsy location: the rewrite is skipped and
the add still writes. -/
theorem c7_witness :
    optimizeSel (fun _ => false)
      ⟨⟨"", "", "", false⟩, true, emptyTriple, false,
        ⟨SelectRelatedState.noneSel, [], ∅, true, false⟩, IterClass.modelIt⟩
      = ⟨⟨"", "", "", false⟩, true, emptyTriple, false,
        ⟨SelectRelatedState.noneSel, [], ∅, true, false⟩, IterClass.modelIt⟩
    ∧ ObjectLocation.key ⟨"", "", "", false⟩
        ∈ (FieldRegistry.add emptyRegistry ⟨"", "", "", false⟩ 2 "x").1.keys := by
  have h := c7_falsy_location_skips_rewrite_not_registry
  exact ⟨h.1 (fun _ => false) _ rfl, (h.2 emptyRegistry ⟨"", "", "", false⟩ 2 "x" rfl).1⟩

/-! ## Claim C8 — locating a call site with no application frame -/

/-- Claim C8, counterexample: with a stack holding only a library frame (no
file name containing the project base directory), `QuerySetLocation.get_source`
raises `IndexError`, and so does the `QuerySetLocation` construction — no
empty falsy Location is returned. -/
theorem c8_counterexample :
    getSource "/app" [⟨"/lib/django/db/models/query.py", "filter", "qs = x"⟩]
      = Except.error LocError.indexError
    ∧ qsLocationInit "/app" "Report" [⟨"/lib/django/db/models/query.py", "filter", "qs = x"⟩]
      = Except.error LocError.indexError := by
  exact ⟨rfl, rfl⟩

/-- Claim C8, amended: when no frame of the running call stack belongs to
application code, the locator does not return an empty falsy Location — the
`[0]` index into the empty filtered file list makes `get_source` raise
`IndexError`, which propagates out of the `QuerySetLocation` construction. -/
theorem c8_no_app_frame_raises (baseDir modelName : String) (stack : List StackFrame)
    (h : ∀ fr ∈ stack, strContains fr.filename baseDir = false) :
    getSource baseDir stack = Except.error LocError.indexError
    ∧ qsLocationInit baseDir modelName stack = Except.error LocError.indexError := by
  have hfil : stack.filter (fun s => strContains s.filename baseDir) = [] := by
    rw [List.filter_eq_nil_iff]
    intro a ha
    rw [h a ha]
    decide
  have h1 : getSource baseDir stack = Except.error LocError.indexError := by
    unfold getSource
    rw [hfil]
    rfl
  refine ⟨h1, ?_⟩
  unfold qsLocationInit
  rw [h1]

/-- Witness for C8 on a concrete interpreter-internals-only stack. -/
theorem c8_witness :
    getSource "/app" [⟨"/usr/lib/python/site.py", "main", "run()"⟩]
      = Except.error LocError.indexError
    ∧ qsLocationInit "/app" "User" [⟨"/usr/lib/python/site.py", "main", "run()"⟩]
      = Except.error LocError.indexError :=
  c8_no_app_frame_raises "/app" "User" [⟨"/usr/lib/python/site.py", "main", "run()"⟩]
    (by decide)

/-! ## Claim C10 — double activation of the deferred-write scope -/

/-- Claim C10, counterexample: activating the scope twice triggers no
assertion or guard of any kind — the second `replace_save_method` simply
overwrites the stashed original with the gathering variant.  The inner
rollback then restores the gathering variant instead of the original save,
and the outer rollback raises `AttributeError` on the deleted stash: the
original save operation is never recovered. -/
theorem c10_counterexample :
    replaceSaveMethod (replaceSaveMethod initialHook)
      = ⟨SaveFn.delayed, some SaveFn.delayed⟩
    ∧ rollbackSaveMethod (replaceSaveMethod (replaceSaveMethod initialHook))
      = Except.ok ⟨SaveFn.delayed, none⟩
    ∧ rollbackSaveMethod ⟨SaveFn.delayed, none⟩ = Except.error PyErr.attributeError := by
  exact ⟨rfl, rfl, rfl⟩

/-- Claim C10, amended: `replace_save_method` is unguarded and total: it
always stashes the current save slot — whatever it holds — and installs the
gathering variant.  A single activation round-trips (the rollback restores
exactly the stashed function and deletes the stash), but a double
activation stashes the gathering variant itself, after which the hook can
only ever roll back to the gathering variant; no error is raised at
activation time. -/
theorem c10_no_double_activation_guard (s : SaveHookState) :
    replaceSaveMethod s = ⟨SaveFn.delayed, some s.save⟩
    ∧ rollbackSaveMethod (replaceSaveMethod s) = Except.ok ⟨s.save, none⟩
    ∧ (replaceSaveMethod (replaceSaveMethod s)).defaultSave = some SaveFn.delayed
    ∧ rollbackSaveMethod (replaceSaveMethod (replaceSaveMethod s))
      = Except.ok ⟨SaveFn.delayed, none⟩ := by
  exact ⟨rfl, rfl, rfl, rfl⟩
